import Mathlib

set_option linter.unusedVariables false

/-!
Shallow embedding of the KallistiOS Dreamcast CD-ROM driver (cdrom.c).

The firmware (gdrom syscalls), the millisecond wall clock and the IRQ-side
effects observed after a semaphore wait are modelled as oracles: for each
syscall a stream of results indexed by a per-syscall call counter.  The
driver's file-scope globals become the `Drv` structure; every embedded
function threads a `World` (driver state, oracles, counters, and an event
trace that records each firmware call, yield, and callback invocation).
Unbounded C polling loops take a fuel argument and return `none` when the
fuel runs out.  Mutex operations and `dbglog` output are not modelled:
the embedding is single-threaded and sequential.
-/

namespace Cdrom

/- Command response codes.  Modelled from the spec: the response enumeration
{no-command-active, busy, processing, completed, streaming, raw negative
error} lives in the dc/cdrom.h header, which is not under src/; values are
the public KOS ones, and only their distinctness and sign matter here. -/

def NO_ACTIVE : Int := 0

def PROCESSING : Int := 1

def COMPLETED : Int := 2

def STREAMING : Int := 3

def BUSY : Int := 4

/- Result codes returned to callers.  Modelled from the spec: the result
taxonomy {OK, no-disc, disc-changed, system error, aborted, no-active,
timeout} is declared in the dc/cdrom.h header (not under src/); only
distinctness matters. -/

def ERR_OK : Int := 0

def ERR_NO_DISC : Int := 1

def ERR_DISC_CHG : Int := 2

def ERR_SYS : Int := 3

def ERR_ABORTED : Int := 4

def ERR_NO_ACTIVE : Int := 5

def ERR_TIMEOUT : Int := 6

/- Read/stream transfer modes.  Modelled from the spec: PIO, DMA,
PIO-with-interrupt and DMA-with-interrupt modes, declared in dc/cdrom.h
(not under src/); `stream_mode = -1` means no active stream, so the four
codes are distinct naturals. -/

def CDROM_READ_PIO : Int := 0

def CDROM_READ_DMA : Int := 1

def CDROM_READ_PIO_IRQ : Int := 2

def CDROM_READ_DMA_IRQ : Int := 3

/- Command identifiers.  Modelled from the spec: opaque positive command
codes from dc/cdrom.h (not under src/); the exact numbers are immaterial,
they only tag submissions in the event trace. -/

def CMD_PIOREAD : Nat := 16

def CMD_DMAREAD : Nat := 17

def CMD_GETTOC2 : Nat := 19

def CMD_INIT : Nat := 24

def CMD_PIOREAD_STREAM : Nat := 35

def CMD_DMAREAD_STREAM : Nat := 36

/- Memory-window constants from arch/memory.h (not under src/): the
cacheable-address mask keeps the low 29 bits, P2 is the uncached window. -/

def MEM_AREA_CACHE_MASK : Nat := 0x1fffffff

def MEM_AREA_P2_BASE : Nat := 0xa0000000

/-- The four-word `cmd_status` array: error code 1, error code 2,
transferred size, ATA status. -/
structure Status4 where
  s0 : Int
  s1 : Int
  s2 : Int
  s3 : Int
deriving DecidableEq

def status0 : Status4 := ⟨0, 0, 0, 0⟩

/-- The driver's file-scope mutable globals.  `stream_cb` abstracts the
`stream_cb` function pointer to registered-or-not; `dma_thd` is 0 for NULL
and nonzero for a recorded thread (or the interrupt-context sentinel). -/
structure Drv where
  cmd_hnd : Int
  cmd_in_progress : Bool
  cmd_response : Int
  cmd_status : Status4
  stream_mode : Int
  stream_cb : Bool
  dma_in_progress : Bool
  dma_blocking : Bool
  dma_thd : Int
  cur_sector_size : Int
deriving DecidableEq

/-- Events recorded in the trace: one per firmware syscall, yield, cache
operation, semaphore wait, or driver-invoked stream callback.
`abortRequest` marks entry into `cdrom_abort_cmd` with its arguments. -/
inductive Event where
  | sendCommand (cmd : Nat)
  | execServer
  | checkCommand (hnd : Int)
  | abortCommandSys (hnd : Int)
  | abortRequest (timeout : Nat) (abort_dma : Bool)
  | gdReset
  | gdInit
  | dmaTransfer (hnd : Int) (addr : Nat) (size : Nat)
  | pioTransfer (hnd : Int) (addr : Nat) (size : Nat)
  | dmaCheck (hnd : Int)
  | pioCheck (hnd : Int)
  | pioSetCallback
  | dcacheInval (addr : Nat) (size : Nat)
  | thdPass
  | semWaitCmd
  | semWaitDma
  | callback
  | clockRead
deriving DecidableEq

/-- Firmware / clock / IRQ-side oracles: the n-th call of each syscall kind
returns the n-th element of its stream.  `cmdWake` and `dmaWake` give the
`cmd_response`/`cmd_status` values observed after a semaphore wait (they
were written by the vblank or G1-DMA interrupt handler before it signalled
the semaphore). -/
structure Fw where
  send : Nat → Int
  check : Nat → Int × Status4
  clock : Nat → Nat
  dmaTrans : Nat → Int
  pioTrans : Nat → Int
  dmaChk : Nat → Int × Nat
  pioChk : Nat → Int × Nat
  cmdWake : Nat → Int × Status4
  dmaWake : Nat → Int × Status4
  semCount : Nat → Nat

/-- A world: oracles, driver globals, per-oracle call counters, trace. -/
structure World where
  fw : Fw
  drv : Drv
  nSend : Nat
  nCheck : Nat
  nClock : Nat
  nDmaT : Nat
  nPioT : Nat
  nDmaC : Nat
  nPioC : Nat
  nCmdW : Nat
  nDmaW : Nat
  nSemC : Nat
  trace : List Event

/-! Syscall wrappers. -/

def execServer (w : World) : World :=
  { w with trace := w.trace ++ [Event.execServer] }

def thdPass (w : World) : World :=
  { w with trace := w.trace ++ [Event.thdPass] }

def sendCommand (cmd : Nat) (w : World) : Int × World :=
  (w.fw.send w.nSend,
    { w with nSend := w.nSend + 1, trace := w.trace ++ [Event.sendCommand cmd] })

/-- `cmd_response = syscall_gdrom_check_command(hnd, cmd_status)`: every
call site assigns the response to `cmd_response` and the syscall fills the
`cmd_status` array, so both updates are folded in here. -/
def checkCommand (hnd : Int) (w : World) : Int × World :=
  let r := w.fw.check w.nCheck
  (r.1, { w with
          nCheck := w.nCheck + 1
          drv := { w.drv with cmd_response := r.1, cmd_status := r.2 }
          trace := w.trace ++ [Event.checkCommand hnd] })

def abortCommandSys (hnd : Int) (w : World) : World :=
  { w with trace := w.trace ++ [Event.abortCommandSys hnd] }

def gdReset (w : World) : World :=
  { w with trace := w.trace ++ [Event.gdReset] }

def gdInit (w : World) : World :=
  { w with trace := w.trace ++ [Event.gdInit] }

def clockRead (w : World) : Nat × World :=
  (w.fw.clock w.nClock,
    { w with nClock := w.nClock + 1, trace := w.trace ++ [Event.clockRead] })

def dmaTransferSys (hnd : Int) (addr size : Nat) (w : World) : Int × World :=
  (w.fw.dmaTrans w.nDmaT,
    { w with nDmaT := w.nDmaT + 1, trace := w.trace ++ [Event.dmaTransfer hnd addr size] })

def pioTransferSys (hnd : Int) (addr size : Nat) (w : World) : Int × World :=
  (w.fw.pioTrans w.nPioT,
    { w with nPioT := w.nPioT + 1, trace := w.trace ++ [Event.pioTransfer hnd addr size] })

def dmaCheckSys (hnd : Int) (w : World) : (Int × Nat) × World :=
  (w.fw.dmaChk w.nDmaC,
    { w with nDmaC := w.nDmaC + 1, trace := w.trace ++ [Event.dmaCheck hnd] })

def pioCheckSys (hnd : Int) (w : World) : (Int × Nat) × World :=
  (w.fw.pioChk w.nPioC,
    { w with nPioC := w.nPioC + 1, trace := w.trace ++ [Event.pioCheck hnd] })

def dcacheInval (addr size : Nat) (w : World) : World :=
  { w with trace := w.trace ++ [Event.dcacheInval addr size] }

/-- `sem_wait(&cmd_done)`: blocks until the vblank hook signals; the hook
has refreshed `cmd_response`/`cmd_status` and cleared `cmd_in_progress`
before signalling, which the oracle `cmdWake` reproduces. -/
def semWaitCmdDone (w : World) : World :=
  let r := w.fw.cmdWake w.nCmdW
  { w with
    nCmdW := w.nCmdW + 1
    drv := { w.drv with cmd_response := r.1, cmd_status := r.2, cmd_in_progress := false }
    trace := w.trace ++ [Event.semWaitCmd] }

/-- `sem_wait(&dma_done)`: blocks until the G1-DMA interrupt handler
signals; the handler has cleared the DMA flags (and, when a synchronous
wait was pending, refreshed the response/status) before signalling. -/
def semWaitDmaDone (w : World) : World :=
  let r := w.fw.dmaWake w.nDmaW
  { w with
    nDmaW := w.nDmaW + 1
    drv := { w.drv with
             cmd_response := r.1, cmd_status := r.2
             cmd_in_progress := false, dma_in_progress := false, dma_blocking := false }
    trace := w.trace ++ [Event.semWaitDma] }

def semCountDmaSys (w : World) : Nat × World :=
  (w.fw.semCount w.nSemC, { w with nSemC := w.nSemC + 1 })

/-- A driver-side invocation of the registered stream callback
(`stream_cb(stream_cb_param)`). -/
def invokeCallback (w : World) : World :=
  { w with trace := w.trace ++ [Event.callback] }

def setHnd (hnd : Int) (w : World) : World :=
  { w with drv := { w.drv with cmd_hnd := hnd } }

/-- `cdrom_stream_set_callback`: store the callback; for the active PIO
modes also register it with the firmware transfer layer. -/
def cdrom_stream_set_callback (cb : Bool) (w : World) : World :=
  let w := { w with drv := { w.drv with stream_cb := cb } }
  if w.drv.stream_mode = CDROM_READ_PIO ∨ w.drv.stream_mode = CDROM_READ_PIO_IRQ then
    { w with trace := w.trace ++ [Event.pioSetCallback] }
  else w

/-- The `for(n = 0; n < 10; ++n)` submission loop of `cdrom_req_cmd`:
send; break on a nonzero handle; otherwise run the firmware server, yield,
and retry. -/
def reqLoop (cmd : Nat) : Nat → World → Int × World
  | 0, w => (0, w)
  | n + 1, w =>
    let r := sendCommand cmd w
    if r.1 ≠ 0 then r
    else reqLoop cmd n (thdPass (execServer r.2))

def cdrom_req_cmd (cmd : Nat) (w : World) : Int × World :=
  reqLoop cmd 10 w

/-- The post-abort drain loop of `cdrom_abort_cmd`: poll until the response
is NO_ACTIVE or COMPLETED; on wall-clock timeout do a full controller
reset + reinit and return ERR_TIMEOUT. -/
def abortLoop (hnd : Int) (timeout begin_ : Nat) : Nat → World → Option (Int × World)
  | 0, _ => none
  | n + 1, w =>
    let w := execServer w
    let r := checkCommand hnd w
    if r.1 = NO_ACTIVE ∨ r.1 = COMPLETED then some (ERR_OK, r.2)
    else if timeout ≠ 0 then
      let c := clockRead r.2
      if timeout ≤ c.1 - begin_ then some (ERR_TIMEOUT, gdInit (gdReset c.2))
      else abortLoop hnd timeout begin_ n (thdPass c.2)
    else abortLoop hnd timeout begin_ n (thdPass r.2)

/-- Mark entry to `cdrom_abort_cmd` in the trace, with its arguments. -/
def abortReqMark (timeout : Nat) (abort_dma : Bool) (w : World) : World :=
  { w with trace := w.trace ++ [Event.abortRequest timeout abort_dma] }

/-- Exit assignments of `cdrom_abort_cmd` (lines 228-233): clear the
handle and the stream mode and, if a callback is registered, clear it
too. -/
def abortClear (w : World) : World :=
  let w := { w with drv := { w.drv with cmd_hnd := 0, stream_mode := -1 } }
  if w.drv.stream_cb then cdrom_stream_set_callback false w else w

/-- Tail of `cdrom_abort_cmd` shared by the non-early-return paths: issue
the hardware abort, drain to a terminal state, then run the exit
assignments. -/
def abortFinish (hnd : Int) (timeout : Nat) (fuel : Nat) (w : World) : Option (Int × World) :=
  let w := abortCommandSys hnd w
  let bw := if timeout ≠ 0 then clockRead w else (0, w)
  (abortLoop hnd timeout bw.1 fuel bw.2).map (fun rw => (rw.1, abortClear rw.2))

/-- `cdrom_abort_cmd`: entry is recorded as an `abortRequest` event.  With
no live handle, ERR_NO_ACTIVE.  Aborting an in-flight blocking DMA just
issues the hardware abort and returns, leaving all state to the blocked
caller.  Aborting a non-blocking DMA pre-clears the DMA and in-progress
flags and the owner thread.  Otherwise proceed with the shared tail. -/
def cdrom_abort_cmd (timeout : Nat) (abort_dma : Bool) (fuel : Nat) (w : World) : Option (Int × World) :=
  let w := abortReqMark timeout abort_dma w
  if w.drv.cmd_hnd ≤ 0 then some (ERR_NO_ACTIVE, w)
  else if abort_dma && w.drv.dma_in_progress then
    if w.drv.dma_blocking then some (ERR_OK, abortCommandSys w.drv.cmd_hnd w)
    else
      abortFinish w.drv.cmd_hnd timeout fuel
        { w with drv := { w.drv with dma_in_progress := false, cmd_in_progress := false, dma_thd := 0 } }
  else abortFinish w.drv.cmd_hnd timeout fuel w

/-- The polling loop of `cdrom_poll_cmd`: run the server, check; break once
the response leaves PROCESSING/BUSY; with a nonzero timeout, on wall-clock
expiry issue `cdrom_abort_cmd(500, false)` and return ERR_TIMEOUT; yield
between iterations. -/
def pollLoop (hnd : Int) (timeout begin_ : Nat) (afuel : Nat) : Nat → World → Option (Int × World)
  | 0, _ => none
  | n + 1, w =>
    let w := execServer w
    let r := checkCommand hnd w
    if r.1 ≠ PROCESSING ∧ r.1 ≠ BUSY then some (ERR_OK, r.2)
    else if timeout ≠ 0 then
      let c := clockRead r.2
      if timeout ≤ c.1 - begin_ then
        (cdrom_abort_cmd 500 false afuel c.2).map (fun rw => (ERR_TIMEOUT, rw.2))
      else pollLoop hnd timeout begin_ afuel n (thdPass c.2)
    else pollLoop hnd timeout begin_ afuel n (thdPass r.2)

def cdrom_poll_cmd (hnd : Int) (timeout : Nat) (fuel : Nat) (w : World) : Option (Int × World) :=
  let bw := if timeout ≠ 0 then clockRead w else (0, w)
  pollLoop hnd timeout bw.1 fuel fuel bw.2

/-- The world after one poll-loop iteration that is about to escalate:
dispatcher run, status checked, wall clock read. -/
def pollIterWorld (hnd : Int) (w : World) : World :=
  (clockRead (checkCommand hnd (execServer w)).2).2

/-- The waiting phase of `cdrom_exec_cmd_ex` after a handle is obtained:
in IRQ mode one non-blocking check, then, if still pending, mark the
command in progress and block on the completion semaphore; otherwise
delegate to `cdrom_poll_cmd`. -/
def execStep (hnd : Int) (timeout : Nat) (use_irq : Bool) (fuel : Nat) (w : World) : Option (Int × World) :=
  if use_irq then
    let w := execServer w
    let r := checkCommand hnd w
    if r.1 = PROCESSING ∨ r.1 = BUSY then
      some (ERR_OK, semWaitCmdDone { r.2 with drv := { r.2.drv with cmd_in_progress := true } })
    else some (ERR_OK, r.2)
  else cdrom_poll_cmd hnd timeout fuel w

/-- Tail of `cdrom_exec_cmd_ex` (lines 160-180): clear the handle unless
the final response is STREAMING, then map the poll outcome and the final
response/status to a result code. -/
def execTail (rv : Int) (w : World) : Int × World :=
  let w := if w.drv.cmd_response ≠ STREAMING then setHnd 0 w else w
  if rv ≠ ERR_OK then (rv, w)
  else if w.drv.cmd_response = COMPLETED ∨ w.drv.cmd_response = STREAMING then (ERR_OK, w)
  else if w.drv.cmd_response = NO_ACTIVE then (ERR_NO_ACTIVE, w)
  else if w.drv.cmd_status.s0 = 2 then (ERR_NO_DISC, w)
  else if w.drv.cmd_status.s0 = 6 then (ERR_DISC_CHG, w)
  else (ERR_SYS, w)

/-- `cdrom_exec_cmd_ex`: submit, fail fast with ERR_SYS if no positive
handle, wait (IRQ or poll), then run the clearing/mapping tail. -/
def cdrom_exec_cmd_ex (cmd : Nat) (timeout : Nat) (use_irq : Bool) (fuel : Nat) (w : World) : Option (Int × World) :=
  let r := cdrom_req_cmd cmd w
  let w := setHnd r.1 r.2
  if r.1 ≤ 0 then some (ERR_SYS, w)
  else (execStep r.1 timeout use_irq fuel w).map (fun rw => execTail rw.1 rw.2)

def cdrom_exec_cmd (cmd : Nat) (fuel : Nat) (w : World) : Option (Int × World) :=
  cdrom_exec_cmd_ex cmd 0 false fuel w

/-- How the drain loop of `cdrom_stream_stop` exits: `broke` falls through
to the clearing tail, `delegated` returns `cdrom_abort_cmd`'s result
directly (the STREAMING case). -/
inductive StopExit where
  | broke (rv : Int)
  | delegated (rv : Int)

def stopLoop (hnd : Int) (afuel : Nat) : Nat → World → Option (StopExit × World)
  | 0, _ => none
  | n + 1, w =>
    let w := execServer w
    let r := checkCommand hnd w
    if r.1 < 0 then some (StopExit.broke ERR_SYS, r.2)
    else if r.1 = COMPLETED ∨ r.1 = NO_ACTIVE then some (StopExit.broke ERR_OK, r.2)
    else if r.1 = STREAMING then
      match cdrom_abort_cmd 1000 false afuel r.2 with
      | none => none
      | some rw => some (StopExit.delegated rw.1, rw.2)
    else stopLoop hnd afuel n (thdPass r.2)

/-- `cdrom_stream_stop`: no-op success with nothing in flight; delegate to
abort when `abort_dma` and a DMA transfer is mid-flight; otherwise drain to
a terminal state and clear the handle, stream mode, and callback. -/
def cdrom_stream_stop (abort_dma : Bool) (fuel : Nat) (w : World) : Option (Int × World) :=
  if w.drv.cmd_hnd ≤ 0 then some (ERR_OK, w)
  else if abort_dma && w.drv.dma_in_progress then cdrom_abort_cmd 1000 true fuel w
  else
    match stopLoop w.drv.cmd_hnd fuel fuel w with
    | none => none
    | some (StopExit.delegated rv, w) => some (rv, w)
    | some (StopExit.broke rv, w) =>
      let w := { w with drv := { w.drv with cmd_hnd := 0, stream_mode := -1 } }
      let w := if w.drv.stream_cb then cdrom_stream_set_callback false w else w
      some (rv, w)

/-- Body of `cdrom_stream_start` after the implicit stop: record the mode,
dispatch on it to submit the streaming command, and reset the mode to -1
if the submission failed.  The sector/count parameters only populate the
firmware parameter block and are omitted. -/
def streamStartCore (mode : Int) (fuel : Nat) (w : World) : Option (Int × World) :=
  let w := { w with drv := { w.drv with stream_mode := mode } }
  let r :=
    if mode = CDROM_READ_DMA then cdrom_exec_cmd_ex CMD_DMAREAD_STREAM 0 false fuel w
    else if mode = CDROM_READ_DMA_IRQ then cdrom_exec_cmd_ex CMD_DMAREAD_STREAM 0 true fuel w
    else if mode = CDROM_READ_PIO_IRQ then cdrom_exec_cmd_ex CMD_PIOREAD_STREAM 0 true fuel w
    else cdrom_exec_cmd_ex CMD_PIOREAD_STREAM 0 false fuel w
  match r with
  | none => none
  | some rw =>
    if rw.1 ≠ ERR_OK then some (rw.1, { rw.2 with drv := { rw.2.drv with stream_mode := -1 } })
    else some rw

/-- `cdrom_stream_start`: if a stream is already active, stop it first
(non-DMA-aborting), then run the start body. -/
def cdrom_stream_start (mode : Int) (fuel : Nat) (w : World) : Option (Int × World) :=
  if w.drv.stream_mode ≠ -1 then
    match cdrom_stream_stop false fuel w with
    | none => none
    | some rw => streamStartCore mode fuel rw.2
  else streamStartCore mode fuel w

/-- Completion loop of a blocking DMA stream request. -/
def dmaReqLoop (hnd : Int) : Nat → World → Option (Int × World)
  | 0, _ => none
  | n + 1, w =>
    let w := execServer w
    let r := checkCommand hnd w
    if r.1 < 0 then some (ERR_SYS, r.2)
    else if r.1 = COMPLETED ∨ r.1 = NO_ACTIVE then some (ERR_OK, setHnd 0 r.2)
    else
      let c := dmaCheckSys hnd r.2
      if c.1.1 = 0 then some (ERR_OK, c.2)
      else dmaReqLoop hnd n (thdPass c.2)

/-- Completion loop of a PIO stream request.  When the transfer check
reports done (`rc = 0`) with zero bytes remaining and a callback is
registered, the driver invokes the callback itself, compensating for the
firmware not calling it on the final chunk. -/
def pioReqLoop (hnd : Int) : Nat → World → Option (Int × World)
  | 0, _ => none
  | n + 1, w =>
    let w := execServer w
    let r := checkCommand hnd w
    if r.1 < 0 then some (ERR_SYS, r.2)
    else if r.1 = COMPLETED ∨ r.1 = NO_ACTIVE then some (ERR_OK, setHnd 0 r.2)
    else
      let c := pioCheckSys hnd r.2
      if c.1.1 = 0 then
        let w := if c.1.2 = 0 ∧ c.2.drv.stream_cb = true then invokeCallback c.2 else c.2
        some (ERR_OK, w)
      else pioReqLoop hnd n (thdPass c.2)

/-- `cdrom_stream_request`: guards (live handle, no DMA in flight),
mode-dependent alignment checks (32-byte for the DMA modes on the masked
physical address, 2-byte otherwise), then the DMA or plain-PIO transfer
path; a mode with no transfer branch (PIO_IRQ) falls through to success.
The non-blocking owner thread is recorded as the nonzero token 1. -/
def cdrom_stream_request (buffer size : Nat) (block : Bool) (fuel : Nat) (w : World) : Option (Int × World) :=
  if w.drv.cmd_hnd ≤ 0 then some (ERR_NO_ACTIVE, w)
  else if w.drv.dma_in_progress then some (ERR_SYS, w)
  else if w.drv.stream_mode = CDROM_READ_DMA ∨ w.drv.stream_mode = CDROM_READ_DMA_IRQ then
    let addr := buffer &&& MEM_AREA_CACHE_MASK
    if addr &&& 0x1f ≠ 0 then some (ERR_SYS, w)
    else
      let w := if addr >>> 24 = 0x0c then dcacheInval buffer size w else w
      let w := { w with drv := { w.drv with dma_in_progress := true, dma_blocking := block } }
      let w := if block then w else { w with drv := { w.drv with dma_thd := 1 } }
      let r := dmaTransferSys w.drv.cmd_hnd addr size w
      if r.1 < 0 then
        some (ERR_SYS, { r.2 with drv := { r.2.drv with dma_in_progress := false, dma_blocking := false, dma_thd := 0 } })
      else if block = false then some (ERR_OK, r.2)
      else
        let w := if r.2.drv.stream_mode = CDROM_READ_DMA_IRQ then semWaitDmaDone r.2 else r.2
        dmaReqLoop w.drv.cmd_hnd fuel w
  else
    if buffer &&& 0x01 ≠ 0 then some (ERR_SYS, w)
    else if w.drv.stream_mode = CDROM_READ_PIO then
      let r := pioTransferSys w.drv.cmd_hnd buffer size w
      if r.1 < 0 then some (ERR_SYS, r.2)
      else pioReqLoop r.2.drv.cmd_hnd fuel r.2
    else some (ERR_OK, w)

/-- Initial loop of `cdrom_read_sectors_dma_irq`: poll until the response
leaves BUSY. -/
def dmaIrqBusyLoop (hnd : Int) : Nat → World → Option World
  | 0, _ => none
  | n + 1, w =>
    let w := execServer w
    let r := checkCommand hnd w
    if r.1 ≠ BUSY then some r.2
    else dmaIrqBusyLoop hnd n (thdPass r.2)

/-- Confirmation loop of `cdrom_read_sectors_dma_irq` after the DMA wait:
poll until the response leaves PROCESSING/BUSY. -/
def dmaIrqProcLoop (hnd : Int) : Nat → World → Option World
  | 0, _ => none
  | n + 1, w =>
    let w := execServer w
    let r := checkCommand hnd w
    if r.1 ≠ PROCESSING ∧ r.1 ≠ BUSY then some r.2
    else dmaIrqProcLoop hnd n (thdPass r.2)

/-- Outcome mapping shared by the tail of `cdrom_read_sectors_dma_irq`. -/
def dmaIrqMap (w : World) : Int :=
  if w.drv.cmd_response = COMPLETED ∨ w.drv.cmd_response = NO_ACTIVE then ERR_OK
  else if w.drv.cmd_status.s0 = 2 then ERR_NO_DISC
  else if w.drv.cmd_status.s0 = 6 then ERR_DISC_CHG
  else ERR_SYS

/-- `cdrom_read_sectors_dma_irq`: submit a DMA read, set the DMA flags,
poll out of BUSY; if PROCESSING, block on the DMA semaphore and re-poll to
a terminal state; otherwise drain a stray semaphore signal; finally clear
the handle and map the outcome. -/
def cdrom_read_sectors_dma_irq (fuel : Nat) (w : World) : Option (Int × World) :=
  let r := cdrom_req_cmd CMD_DMAREAD w
  let w := setHnd r.1 r.2
  if r.1 ≤ 0 then some (ERR_SYS, w)
  else
    let hnd := r.1
    let w := { w with drv := { w.drv with dma_in_progress := true, dma_blocking := true } }
    match dmaIrqBusyLoop hnd fuel w with
    | none => none
    | some w =>
      let step : Option World :=
        if w.drv.cmd_response = PROCESSING then
          let w := semWaitDmaDone { w with drv := { w.drv with cmd_in_progress := true } }
          if w.drv.cmd_response = PROCESSING ∨ w.drv.cmd_response = BUSY then
            dmaIrqProcLoop hnd fuel w
          else some w
        else
          let c := semCountDmaSys w
          if 0 < c.1 then some { c.2 with trace := c.2.trace ++ [Event.semWaitDma] }
          else some c.2
      match step with
      | none => none
      | some w => some (dmaIrqMap w, setHnd 0 w)

/-- `cdrom_read_sectors_ex`: DMA modes check 32-byte alignment of the raw
buffer address, invalidate the data cache for cacheable windows, and run
the IRQ or synchronous DMA read; other modes check 2-byte alignment and
run a PIO read (IRQ-driven for PIO_IRQ). -/
def cdrom_read_sectors_ex (buffer : Nat) (cnt : Nat) (mode : Int) (fuel : Nat) (w : World) : Option (Int × World) :=
  if mode = CDROM_READ_DMA ∨ mode = CDROM_READ_DMA_IRQ then
    if buffer &&& 0x1f ≠ 0 then some (ERR_SYS, w)
    else
      let w := if buffer &&& MEM_AREA_P2_BASE ≠ MEM_AREA_P2_BASE then
          dcacheInval buffer (cnt * w.drv.cur_sector_size.toNat) w
        else w
      if mode = CDROM_READ_DMA_IRQ then cdrom_read_sectors_dma_irq fuel w
      else cdrom_exec_cmd_ex CMD_DMAREAD 0 false fuel w
  else
    if buffer &&& 0x01 ≠ 0 then some (ERR_SYS, w)
    else if mode = CDROM_READ_PIO_IRQ then cdrom_exec_cmd_ex CMD_PIOREAD 0 true fuel w
    else cdrom_exec_cmd_ex CMD_PIOREAD 0 false fuel w

/-- A table of contents: 99 packed track entries plus the packed first and
last track descriptors.  The entry function models the C array
`toc->entry[99]`; indices outside 0..98 are never dereferenced under the
guard of `cdrom_locate_data_track`. -/
structure CDROM_TOC where
  entry : Nat → Nat
  first : Nat
  last : Nat

/- TOC field extraction.  Modelled from the spec: `TOC_LBA`, `TOC_TRACK`
and `TOC_CTRL` are macros in dc/cdrom.h (not under src/) extracting the
LBA (low 24 bits), track number (bits 16-23) and control field (top 4
bits) from a packed 32-bit TOC word. -/

def TOC_LBA (n : Nat) : Nat := n &&& 0x00ffffff

def TOC_TRACK (n : Nat) : Nat := (n &&& 0x00ff0000) >>> 16

def TOC_CTRL (n : Nat) : Nat := (n &&& 0xf0000000) >>> 28

/-- The scan loop of `cdrom_locate_data_track`: from track `i` down to
`first`, return the LBA of the first track found with control field 4. -/
def locateLoop (toc : CDROM_TOC) (first : Nat) : Nat → Nat
  | 0 => 0
  | i + 1 =>
    if i + 1 < first then 0
    else if TOC_CTRL (toc.entry i) = 4 then TOC_LBA (toc.entry i)
    else locateLoop toc first i

/-- `cdrom_locate_data_track`: reject malformed track ranges, then scan
from the last track down to the first for a control-4 (data) track. -/
def cdrom_locate_data_track (toc : CDROM_TOC) : Nat :=
  let first := TOC_TRACK toc.first
  let last := TOC_TRACK toc.last
  if first < 1 ∨ 99 < last ∨ last < first then 0
  else locateLoop toc first last

/-! Spec-side definitions, transcribed from the specification's words for
refinement-style comparison with the code-derived definitions above. -/

/-- The outcome-to-result mapping as the spec states it: timeout (any
non-OK poll outcome) passes through; COMPLETED or STREAMING yield success;
NO_ACTIVE yields the no-active error; a first status word of 2 means no
disc; 6 means disc changed; anything else is the generic system error. -/
def specResultMap (rv resp s0 : Int) : Int :=
  if rv ≠ ERR_OK then rv
  else if resp = COMPLETED ∨ resp = STREAMING then ERR_OK
  else if resp = NO_ACTIVE then ERR_NO_ACTIVE
  else if s0 = 2 then ERR_NO_DISC
  else if s0 = 6 then ERR_DISC_CHG
  else ERR_SYS

/-- Recognizer for command-submission events in the trace. -/
def isSend : Event → Bool
  | Event.sendCommand _ => true
  | _ => false

/-- Recognizer for status-poll (check-command) events in the trace. -/
def isCheck : Event → Bool
  | Event.checkCommand _ => true
  | _ => false

/-- Recognizer for cooperative-yield events in the trace. -/
def isYield : Event → Bool
  | Event.thdPass => true
  | _ => false

/-- Recognizer for firmware-dispatcher (exec-server) events. -/
def isSrv : Event → Bool
  | Event.execServer => true
  | _ => false

/-! Concrete oracles and worlds used by the witnesses. -/

def mkW (fw : Fw) (d : Drv) : World :=
  { fw := fw, drv := d, nSend := 0, nCheck := 0, nClock := 0, nDmaT := 0
    nPioT := 0, nDmaC := 0, nPioC := 0, nCmdW := 0, nDmaW := 0, nSemC := 0
    trace := [] }

def drv0 : Drv :=
  { cmd_hnd := 0, cmd_in_progress := false, cmd_response := 0
    cmd_status := status0, stream_mode := -1, stream_cb := false
    dma_in_progress := false, dma_blocking := false, dma_thd := 0
    cur_sector_size := 2048 }

def fw0 : Fw :=
  { send := fun _ => 7, check := fun _ => (COMPLETED, status0)
    clock := fun n => 2000 * n, dmaTrans := fun _ => 0, pioTrans := fun _ => 0
    dmaChk := fun _ => (0, 0), pioChk := fun _ => (0, 0)
    cmdWake := fun _ => (COMPLETED, status0)
    dmaWake := fun _ => (COMPLETED, status0), semCount := fun _ => 0 }

/-! Concrete firmware oracles, driver states and worlds used by the
witnesses below. -/

def wEmpty : World := mkW fw0 drv0

def w9 : World := mkW fw0 { drv0 with cmd_hnd := 5, stream_mode := CDROM_READ_PIO_IRQ }

def w5d : World := mkW fw0 { drv0 with cmd_hnd := 5, stream_mode := CDROM_READ_DMA }

def w5p : World := mkW fw0 { drv0 with cmd_hnd := 5, stream_mode := CDROM_READ_PIO }

def wC2 : World :=
  mkW fw0 { drv0 with cmd_hnd := 5, dma_in_progress := true, dma_blocking := true
                      stream_mode := CDROM_READ_DMA, stream_cb := true }

def wC2w : World := mkW fw0 { drv0 with cmd_hnd := 5 }

def c2p : Int × World := (cdrom_abort_cmd 1000 false 1 wC2w).getD (0, wC2w)

def wC6 : World :=
  mkW { fw0 with check := fun _ => (STREAMING, status0) }
    { drv0 with cmd_hnd := 5, stream_mode := CDROM_READ_PIO, stream_cb := true }

def c3p : Int × World :=
  (execStep (cdrom_req_cmd CMD_GETTOC2 wEmpty).1 0 false 1
    (setHnd (cdrom_req_cmd CMD_GETTOC2 wEmpty).1
      (cdrom_req_cmd CMD_GETTOC2 wEmpty).2)).getD (0, wEmpty)

def wZ : World := mkW { fw0 with send := fun _ => 0 } drv0

def wC1 : World :=
  mkW fw0 { drv0 with cmd_hnd := 5, stream_mode := CDROM_READ_PIO, stream_cb := true }

def wC1b : World := mkW fw0 { drv0 with stream_mode := CDROM_READ_PIO }

def fwC4 : Fw :=
  { fw0 with check := fun _ => (PROCESSING, status0), clock := fun n => 2000 * n }

def wC4 : World := mkW fwC4 drv0

def toc10 : CDROM_TOC :=
  { entry := fun i => if i = 1 then 0x40000000 + 500 else 100
    first := 0x10000, last := 0x30000 }

end Cdrom

namespace Cdrom

/-- Claim C8: with no command in flight, `cdrom_stream_stop(abort_dma =
true)` returns success and changes nothing, so two consecutive such calls
both succeed with no side effects. -/
theorem c8_stop_idempotent_on_empty (fuel : Nat) (w : World)
    (h : w.drv.cmd_hnd ≤ 0) :
    cdrom_stream_stop true fuel w = some (ERR_OK, w) ∧
      (cdrom_stream_stop true fuel w).bind
        (fun rw => cdrom_stream_stop true fuel rw.2) = some (ERR_OK, w) := by
  have h1 : cdrom_stream_stop true fuel w = some (ERR_OK, w) := by
    simp [cdrom_stream_stop, h]
  exact ⟨h1, by rw [h1]; exact h1⟩

/-- Claim C9: a stream request in PIO-IRQ mode with a live handle, no DMA
in flight and a 2-byte-aligned buffer succeeds while doing nothing at all:
no firmware transfer syscall runs and the world is unchanged. -/
theorem c9_pio_irq_request_no_transfer (buffer size : Nat) (block : Bool)
    (fuel : Nat) (w : World)
    (h0 : 0 < w.drv.cmd_hnd) (h1 : w.drv.dma_in_progress = false)
    (h2 : w.drv.stream_mode = CDROM_READ_PIO_IRQ)
    (h3 : buffer &&& 0x01 = 0) :
    cdrom_stream_request buffer size block fuel w = some (ERR_OK, w) := by
  have hn : ¬ w.drv.cmd_hnd ≤ 0 := not_le.mpr h0
  simp [cdrom_stream_request, hn, h1, h2, h3, CDROM_READ_PIO_IRQ,
    CDROM_READ_DMA, CDROM_READ_DMA_IRQ, CDROM_READ_PIO]

/-- Witness for C8 at a concrete empty world. -/
theorem c8_witness :
    wEmpty.drv.cmd_hnd ≤ 0 ∧
      (cdrom_stream_stop true 1 wEmpty = some (ERR_OK, wEmpty) ∧
        (cdrom_stream_stop true 1 wEmpty).bind
          (fun rw => cdrom_stream_stop true 1 rw.2) = some (ERR_OK, wEmpty)) :=
  ⟨by decide, c8_stop_idempotent_on_empty 1 wEmpty (by decide)⟩

/-- Witness for C9 at a concrete PIO-IRQ streaming world. -/
theorem c9_witness :
    0 < w9.drv.cmd_hnd ∧ w9.drv.dma_in_progress = false ∧
      w9.drv.stream_mode = CDROM_READ_PIO_IRQ ∧ (6 &&& 0x01 : Nat) = 0 ∧
      cdrom_stream_request 6 2048 true 1 w9 = some (ERR_OK, w9) :=
  ⟨by decide, rfl, rfl, by decide,
    c9_pio_irq_request_no_transfer 6 2048 true 1 w9 (by decide) rfl rfl (by decide)⟩

/-- Masking to the cacheable window preserves the low five bits. -/
theorem land_mask_31 (buffer : Nat) :
    (buffer &&& MEM_AREA_CACHE_MASK) &&& 0x1f = buffer &&& 0x1f := by
  rw [Nat.land_assoc]
  congr 1

/-- Claim C5: every DMA-mode read or stream request whose destination
address has a nonzero bit among the low five is rejected with ERR_SYS
before any firmware call (the world, hence the trace, is unchanged), and
every PIO-mode read or stream request with an odd destination address is
likewise rejected. -/
theorem c5_alignment_rejected (buffer cnt size : Nat) (block : Bool)
    (mode : Int) (fuel : Nat) (w : World) :
    ((mode = CDROM_READ_DMA ∨ mode = CDROM_READ_DMA_IRQ) →
      buffer &&& 0x1f ≠ 0 →
      cdrom_read_sectors_ex buffer cnt mode fuel w = some (ERR_SYS, w)) ∧
    (¬(mode = CDROM_READ_DMA ∨ mode = CDROM_READ_DMA_IRQ) →
      buffer &&& 0x01 ≠ 0 →
      cdrom_read_sectors_ex buffer cnt mode fuel w = some (ERR_SYS, w)) ∧
    (0 < w.drv.cmd_hnd → w.drv.dma_in_progress = false →
      (w.drv.stream_mode = CDROM_READ_DMA ∨ w.drv.stream_mode = CDROM_READ_DMA_IRQ) →
      buffer &&& 0x1f ≠ 0 →
      cdrom_stream_request buffer size block fuel w = some (ERR_SYS, w)) ∧
    (0 < w.drv.cmd_hnd → w.drv.dma_in_progress = false →
      ¬(w.drv.stream_mode = CDROM_READ_DMA ∨ w.drv.stream_mode = CDROM_READ_DMA_IRQ) →
      buffer &&& 0x01 ≠ 0 →
      cdrom_stream_request buffer size block fuel w = some (ERR_SYS, w)) := by
  refine ⟨fun hm ha => ?_, fun hm ha => ?_, fun h0 h1 hm ha => ?_, fun h0 h1 hm ha => ?_⟩
  · simp [cdrom_read_sectors_ex, hm, ha]
  · have ha2 : ¬ buffer % 2 = 0 := by rw [← Nat.and_one_is_mod]; exact ha
    simp [cdrom_read_sectors_ex, hm, ha, ha2]
  · have hn : ¬ w.drv.cmd_hnd ≤ 0 := not_le.mpr h0
    have ha2 : (buffer &&& MEM_AREA_CACHE_MASK) &&& 0x1f ≠ 0 := by
      rw [land_mask_31]; exact ha
    simp [cdrom_stream_request, hn, h1, hm, ha2]
  · have hn : ¬ w.drv.cmd_hnd ≤ 0 := not_le.mpr h0
    have ha2 : ¬ buffer % 2 = 0 := by rw [← Nat.and_one_is_mod]; exact ha
    simp [cdrom_stream_request, hn, h1, hm, ha, ha2]

/-- Witness for C5: all four rejection branches at concrete inputs. -/
theorem c5_witness :
    ((1 : Nat) &&& 0x1f ≠ 0 ∧
      cdrom_read_sectors_ex 1 4 CDROM_READ_DMA 1 wEmpty = some (ERR_SYS, wEmpty)) ∧
    ((1 : Nat) &&& 0x01 ≠ 0 ∧
      cdrom_read_sectors_ex 1 4 CDROM_READ_PIO 1 wEmpty = some (ERR_SYS, wEmpty)) ∧
    (0 < w5d.drv.cmd_hnd ∧
      cdrom_stream_request 1 2048 true 1 w5d = some (ERR_SYS, w5d)) ∧
    (0 < w5p.drv.cmd_hnd ∧
      cdrom_stream_request 1 2048 true 1 w5p = some (ERR_SYS, w5p)) :=
  ⟨⟨by decide, (c5_alignment_rejected 1 4 2048 true CDROM_READ_DMA 1 wEmpty).1
      (Or.inl rfl) (by decide)⟩,
   ⟨by decide, (c5_alignment_rejected 1 4 2048 true CDROM_READ_PIO 1 wEmpty).2.1
      (by decide) (by decide)⟩,
   ⟨by decide, (c5_alignment_rejected 1 4 2048 true CDROM_READ_PIO 1 w5d).2.2.1
      (by decide) rfl (Or.inl rfl) (by decide)⟩,
   ⟨by decide, (c5_alignment_rejected 1 4 2048 true CDROM_READ_PIO 1 w5p).2.2.2
      (by decide) rfl (by decide) (by decide)⟩⟩

/-- The exit assignments clear the handle. -/
theorem abortClear_hnd (w : World) : (abortClear w).drv.cmd_hnd = 0 := by
  simp only [abortClear]
  split
  · norm_num [cdrom_stream_set_callback, CDROM_READ_PIO, CDROM_READ_PIO_IRQ]
  · rfl

/-- The exit assignments reset the stream mode. -/
theorem abortClear_mode (w : World) : (abortClear w).drv.stream_mode = -1 := by
  simp only [abortClear]
  split
  · norm_num [cdrom_stream_set_callback, CDROM_READ_PIO, CDROM_READ_PIO_IRQ]
  · rfl

/-- After the exit assignments no callback is registered. -/
theorem abortClear_cb (w : World) : (abortClear w).drv.stream_cb = false := by
  simp only [abortClear]
  split
  · norm_num [cdrom_stream_set_callback, CDROM_READ_PIO, CDROM_READ_PIO_IRQ]
  · rename_i hcb
    simpa using hcb

/-- The exit assignments do not touch the last command response. -/
theorem abortClear_resp (w : World) :
    (abortClear w).drv.cmd_response = w.drv.cmd_response := by
  simp only [abortClear]
  split
  · norm_num [cdrom_stream_set_callback, CDROM_READ_PIO, CDROM_READ_PIO_IRQ]
  · rfl

/-- The exit assignments do not touch the trace: the stream mode has just
been reset, so no firmware callback registration happens. -/
theorem abortClear_trace (w : World) : (abortClear w).trace = w.trace := by
  simp only [abortClear]
  split
  · norm_num [cdrom_stream_set_callback, CDROM_READ_PIO, CDROM_READ_PIO_IRQ]
  · rfl

/-- Discharging the shared tail of `cdrom_abort_cmd`: once the drain loop
terminates, the handle is cleared, the stream mode is reset, and the
callback is cleared. -/
theorem abortFinish_post (hnd : Int) (timeout fuel : Nat) (w : World)
    (r : Int) (w' : World)
    (h : abortFinish hnd timeout fuel w = some (r, w')) :
    w'.drv.cmd_hnd = 0 ∧ w'.drv.stream_mode = -1 ∧ w'.drv.stream_cb = false := by
  simp only [abortFinish, Option.map_eq_some'] at h
  obtain ⟨rw, hloop, heq⟩ := h
  obtain ⟨h1, h2⟩ := Prod.mk.injEq .. ▸ heq
  subst h2
  exact ⟨abortClear_hnd rw.2, abortClear_mode rw.2, abortClear_cb rw.2⟩

/-- Claim C2 fails as stated: aborting while a blocking DMA transfer is in
flight returns after the bare hardware abort with the handle still live,
the stream mode still set, and the callback still registered. -/
theorem c2_counterexample :
    ∃ rw : Int × World, cdrom_abort_cmd 1000 true 1 wC2 = some rw ∧
      rw.2.drv.cmd_hnd = 5 ∧ rw.2.drv.stream_mode = CDROM_READ_DMA ∧
      rw.2.drv.stream_cb = true :=
  ⟨_, rfl, rfl, rfl, rfl⟩

/-- Claim C2 amended: on every return path of `cdrom_abort_cmd` with a
live handle EXCEPT the blocking-DMA early return, the handle is cleared,
the stream mode is reset and the callback is cleared; the blocking-DMA
path only issues the hardware abort and leaves the state to the blocked
caller. -/
theorem c2_abort_clears_unless_blocking_dma (timeout : Nat) (abort_dma : Bool)
    (fuel : Nat) (w : World) (r : Int) (w' : World)
    (h0 : 0 < w.drv.cmd_hnd)
    (h1 : ¬(abort_dma = true ∧ w.drv.dma_in_progress = true ∧ w.drv.dma_blocking = true))
    (h : cdrom_abort_cmd timeout abort_dma fuel w = some (r, w')) :
    w'.drv.cmd_hnd = 0 ∧ w'.drv.stream_mode = -1 ∧ w'.drv.stream_cb = false := by
  simp only [cdrom_abort_cmd] at h
  rw [if_neg (by simpa using not_le.mpr h0)] at h
  split at h
  · rename_i hdma
    rw [Bool.and_eq_true] at hdma
    split at h
    · rename_i hblk
      exact absurd ⟨hdma.1, by simpa using hdma.2, by simpa using hblk⟩ h1
    · exact abortFinish_post _ _ _ _ _ _ h
  · exact abortFinish_post _ _ _ _ _ _ h

/-- Witness for the amended C2 at a concrete live-handle world. -/
theorem c2_witness :
    0 < wC2w.drv.cmd_hnd ∧ c2p.2.drv.cmd_hnd = 0 ∧
      c2p.2.drv.stream_mode = -1 ∧ c2p.2.drv.stream_cb = false :=
  ⟨by decide,
    c2_abort_clears_unless_blocking_dma 1000 false 1 wC2w c2p.1 c2p.2
      (by decide) (by decide) rfl⟩

/-- Claim C6: a PIO stream request whose transfer check reports done with
zero bytes remaining while a callback is registered invokes the callback
exactly once for that transfer. -/
theorem c6_pio_final_chunk_callback (buffer size : Nat) (block : Bool)
    (k : Nat) (w : World)
    (h0 : 0 < w.drv.cmd_hnd) (h1 : w.drv.dma_in_progress = false)
    (h2 : w.drv.stream_mode = CDROM_READ_PIO) (h3 : buffer &&& 0x01 = 0)
    (h4 : w.drv.stream_cb = true)
    (h5 : 0 ≤ w.fw.pioTrans w.nPioT)
    (h6 : (w.fw.check w.nCheck).1 = STREAMING)
    (h7 : w.fw.pioChk w.nPioC = (0, 0)) :
    ∃ w', cdrom_stream_request buffer size block (k + 1) w = some (ERR_OK, w') ∧
      w'.trace.count Event.callback = w.trace.count Event.callback + 1 := by
  have hn : ¬ w.drv.cmd_hnd ≤ 0 := not_le.mpr h0
  have ha : buffer % 2 = 0 := by rw [← Nat.and_one_is_mod]; exact h3
  have h5' : ¬ w.fw.pioTrans w.nPioT < 0 := not_lt.mpr h5
  simp only [cdrom_stream_request, hn, h1, h2, h3, ha, h4, h5', h6, h7,
    CDROM_READ_PIO, CDROM_READ_DMA, CDROM_READ_DMA_IRQ, CDROM_READ_PIO_IRQ,
    STREAMING, COMPLETED, NO_ACTIVE, ERR_OK,
    pioTransferSys, pioReqLoop, pioCheckSys, execServer, checkCommand,
    invokeCallback, if_true, if_false]
  norm_num
  simp [List.count_cons, List.count_nil]

/-- Witness for C6 at a concrete PIO streaming world whose final transfer
check reports completion with zero bytes remaining. -/
theorem c6_witness :
    0 < wC6.drv.cmd_hnd ∧ wC6.drv.stream_cb = true ∧
      wC6.fw.pioChk wC6.nPioC = (0, 0) ∧
      ∃ w', cdrom_stream_request 6 2048 true 1 wC6 = some (ERR_OK, w') ∧
        w'.trace.count Event.callback = wC6.trace.count Event.callback + 1 :=
  ⟨by decide, rfl, rfl,
    c6_pio_final_chunk_callback 6 2048 true 0 wC6 (by decide) rfl rfl
      (by decide) rfl (by decide) rfl rfl⟩

/-- Characterization of the downward scan loop of
`cdrom_locate_data_track`: either it finds the highest track in
`[first, n]` with control field 4 and returns its LBA, or no such track
exists and it returns 0. -/
theorem locateLoop_char (toc : CDROM_TOC) (first : Nat) (h1 : 1 ≤ first)
    (n : Nat) :
    (∃ i, first ≤ i ∧ i ≤ n ∧ TOC_CTRL (toc.entry (i - 1)) = 4 ∧
      (∀ j, i < j → j ≤ n → TOC_CTRL (toc.entry (j - 1)) ≠ 4) ∧
      locateLoop toc first n = TOC_LBA (toc.entry (i - 1)))
    ∨ ((∀ i, first ≤ i → i ≤ n → TOC_CTRL (toc.entry (i - 1)) ≠ 4) ∧
      locateLoop toc first n = 0) := by
  induction n with
  | zero =>
    right
    refine ⟨fun i hfi hi0 => absurd (hfi.trans hi0) (by omega), by simp [locateLoop]⟩
  | succ n ih =>
    by_cases hf : n + 1 < first
    · right
      refine ⟨fun i hfi hin => absurd (hfi.trans hin) (not_le.mpr hf), ?_⟩
      simp [locateLoop, hf]
    · by_cases hc : TOC_CTRL (toc.entry n) = 4
      · left
        refine ⟨n + 1, by omega, le_refl _, by simpa using hc,
          fun j hj1 hj2 => absurd hj1 (by omega), ?_⟩
        simp [locateLoop, hf, hc]
      · rcases ih with ⟨i, hi1, hi2, hic, hmax, heq⟩ | ⟨hall, heq⟩
        · left
          refine ⟨i, hi1, hi2.trans (Nat.le_succ n), hic, ?_, ?_⟩
          · intro j hj1 hj2
            rcases Nat.lt_or_ge j (n + 1) with hj | hj
            · exact hmax j hj1 (by omega)
            · have hje : j = n + 1 := by omega
              subst hje
              simpa using hc
          · rw [show locateLoop toc first (n + 1) = locateLoop toc first n by
              simp [locateLoop, hf, hc]]
            exact heq
        · right
          refine ⟨?_, ?_⟩
          · intro i hfi hin
            rcases Nat.lt_or_ge i (n + 1) with hi | hi
            · exact hall i hfi (by omega)
            · have hie : i = n + 1 := by omega
              subst hie
              simpa using hc
          · rw [show locateLoop toc first (n + 1) = locateLoop toc first n by
              simp [locateLoop, hf, hc]]
            exact heq

/-- Claim C10: `cdrom_locate_data_track` returns 0 on a malformed track
range (first track < 1, last track > 99, or first > last); otherwise it
returns the LBA of the highest-numbered track with control field 4,
scanning from the last track down to the first, and 0 when none exists. -/
theorem c10_locate_data_track_char (toc : CDROM_TOC) :
    ((TOC_TRACK toc.first < 1 ∨ 99 < TOC_TRACK toc.last ∨
        TOC_TRACK toc.last < TOC_TRACK toc.first) →
      cdrom_locate_data_track toc = 0) ∧
    (1 ≤ TOC_TRACK toc.first → TOC_TRACK toc.last ≤ 99 →
      TOC_TRACK toc.first ≤ TOC_TRACK toc.last →
      ((∃ i, TOC_TRACK toc.first ≤ i ∧ i ≤ TOC_TRACK toc.last ∧
          TOC_CTRL (toc.entry (i - 1)) = 4 ∧
          (∀ j, i < j → j ≤ TOC_TRACK toc.last →
            TOC_CTRL (toc.entry (j - 1)) ≠ 4) ∧
          cdrom_locate_data_track toc = TOC_LBA (toc.entry (i - 1)))
        ∨ ((∀ i, TOC_TRACK toc.first ≤ i → i ≤ TOC_TRACK toc.last →
            TOC_CTRL (toc.entry (i - 1)) ≠ 4) ∧
          cdrom_locate_data_track toc = 0))) := by
  constructor
  · intro h
    simp only [cdrom_locate_data_track]
    rw [if_pos h]
  · intro h1 h2 h3
    have hguard : ¬(TOC_TRACK toc.first < 1 ∨ 99 < TOC_TRACK toc.last ∨
        TOC_TRACK toc.last < TOC_TRACK toc.first) := by omega
    have hls : cdrom_locate_data_track toc =
        locateLoop toc (TOC_TRACK toc.first) (TOC_TRACK toc.last) := by
      simp only [cdrom_locate_data_track]
      rw [if_neg hguard]
    rw [hls]
    exact locateLoop_char toc (TOC_TRACK toc.first) h1 (TOC_TRACK toc.last)

/-- A delegated exit of the stop drain loop comes from a nested
`cdrom_abort_cmd 1000 false` call on a world with the same handle. -/
theorem stopLoop_delegated_from_abort (hnd : Int) (afuel : Nat) :
    ∀ (n : Nat) (w : World) (rv : Int) (w2 : World),
      stopLoop hnd afuel n w = some (StopExit.delegated rv, w2) →
      ∃ w1, cdrom_abort_cmd 1000 false afuel w1 = some (rv, w2) ∧
        w1.drv.cmd_hnd = w.drv.cmd_hnd := by
  intro n
  induction n with
  | zero => intro w rv w2 h; exact absurd h (by simp [stopLoop])
  | succ n ih =>
    intro w rv w2 h
    simp only [stopLoop] at h
    split at h
    · exact absurd h (by simp)
    · split at h
      · exact absurd h (by simp)
      · split at h
        · split at h
          · exact absurd h (by simp)
          · rename_i rw heq
            rw [Option.some_inj] at h
            obtain ⟨h1, h2⟩ := Prod.mk.injEq .. ▸ h
            obtain rfl : rw.1 = rv := by
              injection h1
            subst h2
            exact ⟨_, heq, rfl⟩
        · obtain ⟨w1, heq, hpres⟩ := ih _ _ _ h
          exact ⟨w1, heq, hpres⟩

/-- A `cdrom_abort_cmd` with `abort_dma = false` on a live handle always
resets the stream mode. -/
theorem abort_false_sets_stream (t afuel : Nat) (w1 : World) (rv : Int)
    (w2 : World) (hh : 0 < w1.drv.cmd_hnd)
    (h : cdrom_abort_cmd t false afuel w1 = some (rv, w2)) :
    w2.drv.stream_mode = -1 := by
  simp only [cdrom_abort_cmd] at h
  rw [if_neg (by simpa using not_le.mpr hh)] at h
  simp only [Bool.false_and, Bool.false_eq_true, if_false] at h
  exact (abortFinish_post _ _ _ _ _ _ h).2.1

/-- Post-state of a non-DMA-aborting stream stop: either the stream mode
has been reset, or the call was the no-op on an empty state. -/
theorem stop_false_post (fuel : Nat) (w : World) (r : Int) (w' : World)
    (h : cdrom_stream_stop false fuel w = some (r, w')) :
    w'.drv.stream_mode = -1 ∨ (w' = w ∧ w.drv.cmd_hnd ≤ 0) := by
  simp only [cdrom_stream_stop, Bool.false_and, Bool.false_eq_true, if_false] at h
  split at h
  · rename_i hc
    rw [Option.some_inj] at h
    obtain ⟨h1, h2⟩ := Prod.mk.injEq .. ▸ h
    exact Or.inr ⟨h2.symm, hc⟩
  · rename_i hc
    split at h
    · exact absurd h (by simp)
    · rename_i rv w2 heq
      obtain ⟨w1, habort, hpres⟩ := stopLoop_delegated_from_abort _ _ _ _ _ _ heq
      rw [Option.some_inj] at h
      obtain ⟨h1, h2⟩ := Prod.mk.injEq .. ▸ h
      subst h2
      exact Or.inl (abort_false_sets_stream 1000 fuel w1 rv _
        (by rw [hpres]; exact lt_of_not_le hc) habort)
    · rename_i rv w2 heq
      rw [Option.some_inj] at h
      obtain ⟨h1, h2⟩ := Prod.mk.injEq .. ▸ h
      subst h2
      left
      split
      · simp [cdrom_stream_set_callback, CDROM_READ_PIO, CDROM_READ_PIO_IRQ]
      · rfl

/-- The result component of the executor's tail is exactly the spec's
outcome mapping. -/
theorem execTail_fst (rv : Int) (w : World) :
    (execTail rv w).1 = specResultMap rv w.drv.cmd_response w.drv.cmd_status.s0 := by
  simp only [execTail, specResultMap]
  have hresp : (if w.drv.cmd_response ≠ STREAMING then setHnd 0 w else w).drv.cmd_response
      = w.drv.cmd_response := by
    split <;> rfl
  have hstat : (if w.drv.cmd_response ≠ STREAMING then setHnd 0 w else w).drv.cmd_status
      = w.drv.cmd_status := by
    split <;> rfl
  rw [hresp, hstat]
  split_ifs <;> rfl

/-- The world component of the executor's tail: the handle is cleared
unless the final response is STREAMING. -/
theorem execTail_snd (rv : Int) (w : World) :
    (execTail rv w).2 =
      if w.drv.cmd_response ≠ STREAMING then setHnd 0 w else w := by
  simp only [execTail]
  split_ifs <;> rfl

/-- Claim C3: whenever `cdrom_exec_cmd_ex` obtains a handle and its wait
phase terminates with poll outcome `rv` and final globals `w2`, the
returned result is exactly the spec's mapping: non-OK poll outcomes
(timeout) pass through; COMPLETED or STREAMING yield ERR_OK; NO_ACTIVE
yields ERR_NO_ACTIVE; a first status word of 2 yields ERR_NO_DISC; 6
yields ERR_DISC_CHG; anything else yields ERR_SYS. -/
theorem c3_result_mapping (cmd t : Nat) (irq : Bool) (fuel : Nat) (w : World)
    (rv : Int) (w2 : World)
    (hh : 0 < (cdrom_req_cmd cmd w).1)
    (hs : execStep (cdrom_req_cmd cmd w).1 t irq fuel
        (setHnd (cdrom_req_cmd cmd w).1 (cdrom_req_cmd cmd w).2) = some (rv, w2)) :
    ∃ w3, cdrom_exec_cmd_ex cmd t irq fuel w =
      some (specResultMap rv w2.drv.cmd_response w2.drv.cmd_status.s0, w3) := by
  have hn : ¬ (cdrom_req_cmd cmd w).1 ≤ 0 := not_le.mpr hh
  simp only [cdrom_exec_cmd_ex, hn, hs, if_false, Option.map_some']
  refine ⟨(execTail rv w2).2, ?_⟩
  rw [← execTail_fst rv w2]

/-- Witness for C3 at a concrete firmware that completes on the first
poll. -/
theorem c3_witness :
    0 < (cdrom_req_cmd CMD_GETTOC2 wEmpty).1 ∧
      ∃ w3, cdrom_exec_cmd_ex CMD_GETTOC2 0 false 1 wEmpty =
        some (specResultMap c3p.1 c3p.2.drv.cmd_response c3p.2.drv.cmd_status.s0, w3) :=
  ⟨by decide,
    c3_result_mapping CMD_GETTOC2 0 false 1 wEmpty c3p.1 c3p.2 (by decide) rfl⟩

/-- Characterization of the bounded submission loop: within `n` attempts
it returns the first nonzero handle (having sent once per attempt up to
and including the successful one, and run the dispatcher and yielded once
per failed attempt), or returns 0 after `n` failed attempts; it never
polls command status. -/
theorem reqLoop_char (cmd : Nat) (n : Nat) : ∀ (w : World),
    ((∃ i, i < n ∧ (∀ j, j < i → w.fw.send (w.nSend + j) = 0) ∧
        w.fw.send (w.nSend + i) ≠ 0 ∧
        (reqLoop cmd n w).1 = w.fw.send (w.nSend + i) ∧
        (reqLoop cmd n w).2.trace.countP isSend = w.trace.countP isSend + (i + 1) ∧
        (reqLoop cmd n w).2.trace.countP isSrv = w.trace.countP isSrv + i ∧
        (reqLoop cmd n w).2.trace.countP isYield = w.trace.countP isYield + i)
     ∨ ((∀ j, j < n → w.fw.send (w.nSend + j) = 0) ∧
        (reqLoop cmd n w).1 = 0 ∧
        (reqLoop cmd n w).2.trace.countP isSend = w.trace.countP isSend + n ∧
        (reqLoop cmd n w).2.trace.countP isSrv = w.trace.countP isSrv + n ∧
        (reqLoop cmd n w).2.trace.countP isYield = w.trace.countP isYield + n)) ∧
    (reqLoop cmd n w).2.trace.countP isCheck = w.trace.countP isCheck := by
  induction n with
  | zero =>
    intro w
    refine ⟨Or.inr ⟨fun j hj => absurd hj (Nat.not_lt_zero j), ?_, ?_, ?_, ?_⟩, ?_⟩
    all_goals simp [reqLoop]
  | succ n ih =>
    intro w
    by_cases hz : w.fw.send w.nSend = 0
    · have hstep : reqLoop cmd (n + 1) w =
          reqLoop cmd n (thdPass (execServer (sendCommand cmd w).2)) := by
        simp [reqLoop, sendCommand, hz]
      set w1 : World := thdPass (execServer (sendCommand cmd w).2) with hw1
      have hfw : w1.fw = w.fw := rfl
      have hns : w1.nSend = w.nSend + 1 := rfl
      have hcs : w1.trace.countP isSend = w.trace.countP isSend + 1 := by
        simp [hw1, thdPass, execServer, sendCommand, List.countP_append, isSend,
          isSrv, isYield]
      have hcv : w1.trace.countP isSrv = w.trace.countP isSrv + 1 := by
        simp [hw1, thdPass, execServer, sendCommand, List.countP_append, isSend,
          isSrv, isYield]
      have hcy : w1.trace.countP isYield = w.trace.countP isYield + 1 := by
        simp [hw1, thdPass, execServer, sendCommand, List.countP_append, isSend,
          isSrv, isYield]
      have hcc : w1.trace.countP isCheck = w.trace.countP isCheck := by
        simp [hw1, thdPass, execServer, sendCommand, List.countP_append, isCheck]
      obtain ⟨ihd, ihc⟩ := ih w1
      refine ⟨?_, ?_⟩
      · rcases ihd with ⟨i, hi, hprev, hnz, hval, hs, hsrv, hy⟩ | ⟨hall, hval, hs, hsrv, hy⟩
        · left
          refine ⟨i + 1, by omega, ?_, ?_, ?_, ?_, ?_, ?_⟩
          · intro j hj
            match j, hj with
            | 0, _ => simpa using hz
            | k + 1, hj =>
              have hk : w.nSend + (k + 1) = w1.nSend + k := by
                rw [hns]; omega
              rw [hk, ← hfw]
              exact hprev k (by omega)
          · have hk : w.nSend + (i + 1) = w1.nSend + i := by
              rw [hns]; omega
            rw [hk, ← hfw]
            exact hnz
          · rw [hstep, hval, hfw, hns]
            congr 1
            omega
          · rw [hstep, hs, hcs]; omega
          · rw [hstep, hsrv, hcv]; omega
          · rw [hstep, hy, hcy]; omega
        · right
          refine ⟨?_, ?_, ?_, ?_, ?_⟩
          · intro j hj
            match j, hj with
            | 0, _ => simpa using hz
            | k + 1, hj =>
              have hk : w.nSend + (k + 1) = w1.nSend + k := by
                rw [hns]; omega
              rw [hk, ← hfw]
              exact hall k (by omega)
          · rw [hstep]; exact hval
          · rw [hstep, hs, hcs]; omega
          · rw [hstep, hsrv, hcv]; omega
          · rw [hstep, hy, hcy]; omega
      · rw [hstep, ihc, hcc]
    · have hstep : reqLoop cmd (n + 1) w = (w.fw.send w.nSend, (sendCommand cmd w).2) := by
        simp [reqLoop, sendCommand, hz]
      refine ⟨Or.inl ⟨0, by omega, fun j hj => absurd hj (Nat.not_lt_zero j), ?_, ?_, ?_, ?_, ?_⟩, ?_⟩
      · simpa using hz
      · rw [hstep]; simp
      · rw [hstep]
        simp [sendCommand, List.countP_append, isSend]
      · rw [hstep]
        simp [sendCommand, List.countP_append, isSrv]
      · rw [hstep]
        simp [sendCommand, List.countP_append, isYield]
      · rw [hstep]
        simp [sendCommand, List.countP_append, isCheck]

/-- Claim C7: `cdrom_req_cmd` attempts the firmware send at most 10 times,
running the dispatcher and yielding between attempts, and returns the
first nonzero handle (or 0 after 10 failures); when no positive handle is
obtained, `cdrom_exec_cmd_ex` returns ERR_SYS without any status poll. -/
theorem c7_submission_bounded (cmd t : Nat) (irq : Bool) (fuel : Nat)
    (w : World) :
    ((∃ i, i < 10 ∧ (∀ j, j < i → w.fw.send (w.nSend + j) = 0) ∧
        w.fw.send (w.nSend + i) ≠ 0 ∧
        (cdrom_req_cmd cmd w).1 = w.fw.send (w.nSend + i) ∧
        (cdrom_req_cmd cmd w).2.trace.countP isSend = w.trace.countP isSend + (i + 1) ∧
        (cdrom_req_cmd cmd w).2.trace.countP isSrv = w.trace.countP isSrv + i ∧
        (cdrom_req_cmd cmd w).2.trace.countP isYield = w.trace.countP isYield + i)
     ∨ ((∀ j, j < 10 → w.fw.send (w.nSend + j) = 0) ∧
        (cdrom_req_cmd cmd w).1 = 0 ∧
        (cdrom_req_cmd cmd w).2.trace.countP isSend = w.trace.countP isSend + 10 ∧
        (cdrom_req_cmd cmd w).2.trace.countP isSrv = w.trace.countP isSrv + 10 ∧
        (cdrom_req_cmd cmd w).2.trace.countP isYield = w.trace.countP isYield + 10)) ∧
    ((cdrom_req_cmd cmd w).1 ≤ 0 →
      cdrom_exec_cmd_ex cmd t irq fuel w =
        some (ERR_SYS, setHnd (cdrom_req_cmd cmd w).1 (cdrom_req_cmd cmd w).2) ∧
      (cdrom_req_cmd cmd w).2.trace.countP isCheck = w.trace.countP isCheck) := by
  obtain ⟨hd, hc⟩ := reqLoop_char cmd 10 w
  refine ⟨hd, fun hle => ⟨?_, hc⟩⟩
  simp only [cdrom_exec_cmd_ex, hle, if_true]

/-- Witness for C7: the fail-fast branch on a firmware that never grants
a handle, and the first-success branch on one that does. -/
theorem c7_witness :
    ((cdrom_req_cmd CMD_INIT wZ).1 ≤ 0 ∧
      (cdrom_exec_cmd_ex CMD_INIT 0 false 1 wZ =
          some (ERR_SYS, setHnd (cdrom_req_cmd CMD_INIT wZ).1 (cdrom_req_cmd CMD_INIT wZ).2) ∧
        (cdrom_req_cmd CMD_INIT wZ).2.trace.countP isCheck = wZ.trace.countP isCheck)) ∧
    ((∃ i, i < 10 ∧ (∀ j, j < i → wEmpty.fw.send (wEmpty.nSend + j) = 0) ∧
        wEmpty.fw.send (wEmpty.nSend + i) ≠ 0 ∧
        (cdrom_req_cmd CMD_INIT wEmpty).1 = wEmpty.fw.send (wEmpty.nSend + i) ∧
        (cdrom_req_cmd CMD_INIT wEmpty).2.trace.countP isSend = wEmpty.trace.countP isSend + (i + 1) ∧
        (cdrom_req_cmd CMD_INIT wEmpty).2.trace.countP isSrv = wEmpty.trace.countP isSrv + i ∧
        (cdrom_req_cmd CMD_INIT wEmpty).2.trace.countP isYield = wEmpty.trace.countP isYield + i)
     ∨ ((∀ j, j < 10 → wEmpty.fw.send (wEmpty.nSend + j) = 0) ∧
        (cdrom_req_cmd CMD_INIT wEmpty).1 = 0 ∧
        (cdrom_req_cmd CMD_INIT wEmpty).2.trace.countP isSend = wEmpty.trace.countP isSend + 10 ∧
        (cdrom_req_cmd CMD_INIT wEmpty).2.trace.countP isSrv = wEmpty.trace.countP isSrv + 10 ∧
        (cdrom_req_cmd CMD_INIT wEmpty).2.trace.countP isYield = wEmpty.trace.countP isYield + 10)) :=
  ⟨⟨by decide, (c7_submission_bounded CMD_INIT 0 false 1 wZ).2 (by decide)⟩,
    (c7_submission_bounded CMD_INIT 0 false 1 wEmpty).1⟩

/-- Claim C1 fails as stated: submitting a synchronous command through
`cdrom_exec_cmd_ex` while a stream is active (stream_mode = PIO, live
handle, registered callback) obtains a new handle and succeeds without
ever stopping the stream — the final state still shows the live stream
mode and callback. -/
theorem c1_counterexample :
    ∃ rw : Int × World, cdrom_exec_cmd_ex CMD_INIT 0 false 1 wC1 = some rw ∧
      0 < (cdrom_req_cmd CMD_INIT wC1).1 ∧ rw.1 = ERR_OK ∧
      rw.2.drv.stream_mode = CDROM_READ_PIO ∧ rw.2.drv.stream_cb = true :=
  ⟨_, rfl, by decide, rfl, rfl, rfl⟩

/-- Claim C1 amended: the implicit stop-before-start belongs to
`cdrom_stream_start`, not to `cdrom_exec_cmd_ex`: starting a stream while
one is active behaves exactly as a non-DMA-aborting stop followed by the
same start (and the single global `cmd_hnd` cell is what keeps at most one
handle stored at a time). -/
theorem c1_stream_start_stops_active_stream (mode : Int) (fuel : Nat)
    (w : World) (h : w.drv.stream_mode ≠ -1) :
    cdrom_stream_start mode fuel w =
      (cdrom_stream_stop false fuel w).bind
        (fun rw => cdrom_stream_start mode fuel rw.2) := by
  rw [cdrom_stream_start, if_pos h]
  cases hstop : cdrom_stream_stop false fuel w with
  | none => simp
  | some rw =>
    simp only [Option.bind_eq_bind, Option.some_bind]
    rcases stop_false_post fuel w rw.1 rw.2 hstop with hm | ⟨hw, hc⟩
    · rw [cdrom_stream_start, if_neg (by simp [hm])]
    · have h2 : rw.2.drv.stream_mode ≠ -1 := by rw [hw]; exact h
      rw [cdrom_stream_start, if_pos h2, hw, hstop]
      simp [hw]

/-- Witness for the amended C1 at a concrete world with an active stream
mode. -/
theorem c1_witness :
    wC1b.drv.stream_mode ≠ -1 ∧
      cdrom_stream_start CDROM_READ_DMA 1 wC1b =
        (cdrom_stream_stop false 1 wC1b).bind
          (fun rw => cdrom_stream_start CDROM_READ_DMA 1 rw.2) :=
  ⟨by decide, c1_stream_start_stops_active_stream CDROM_READ_DMA 1 wC1b (by decide)⟩

/-- One poll-loop iteration whose status is still pending and whose clock
read exceeds the timeout escalates: it calls `cdrom_abort_cmd` with the
fixed 500 ms grace period and `abort_dma = false`, and returns the timeout
error. -/
theorem pollLoop_timeout_step (hnd : Int) (timeout begin_ afuel k : Nat)
    (w : World)
    (hB : ¬((w.fw.check w.nCheck).1 ≠ PROCESSING ∧ (w.fw.check w.nCheck).1 ≠ BUSY))
    (ht : timeout ≠ 0)
    (htrig : timeout ≤ w.fw.clock w.nClock - begin_) :
    pollLoop hnd timeout begin_ afuel (k + 1) w =
      Option.map (fun rw => (ERR_TIMEOUT, rw.2))
        (cdrom_abort_cmd 500 false afuel (pollIterWorld hnd w)) := by
  simp only [pollLoop, pollIterWorld, execServer, checkCommand, clockRead, hB,
    ht, htrig, if_false, if_true, ite_not, ne_eq, not_false_eq_true]

/-- One abort-drain iteration whose status is still pending and whose
clock read exceeds the grace period escalates to the full reset + reinit
recovery and reports the timeout. -/
theorem abortLoop_timeout_step (hnd : Int) (timeout begin_ k : Nat)
    (w : World)
    (hB : ¬((w.fw.check w.nCheck).1 = NO_ACTIVE ∨ (w.fw.check w.nCheck).1 = COMPLETED))
    (ht : timeout ≠ 0)
    (htrig : timeout ≤ w.fw.clock w.nClock - begin_) :
    abortLoop hnd timeout begin_ (k + 1) w =
      some (ERR_TIMEOUT, gdInit (gdReset (pollIterWorld hnd w))) := by
  simp only [abortLoop, pollIterWorld, execServer, checkCommand, clockRead,
    hB, ht, htrig, if_false, if_true, ite_not, ne_eq, not_false_eq_true]

/-- Under a firmware whose command status never leaves PROCESSING/BUSY and
a clock that advances by more than the 500 ms grace period between reads,
`cdrom_abort_cmd 500 false` on a live handle times out, performs the
reset recovery, and exits with the handle cleared. -/
theorem abort_times_out (k : Nat) (w : World)
    (h0 : 0 < w.drv.cmd_hnd)
    (hchk : ∀ n, (w.fw.check n).1 = PROCESSING ∨ (w.fw.check n).1 = BUSY)
    (hclk : ∀ n, w.fw.clock n + 500 ≤ w.fw.clock (n + 1)) :
    ∃ w2, cdrom_abort_cmd 500 false (k + 1) w = some (ERR_TIMEOUT, w2) ∧
      w2.drv.cmd_hnd = 0 ∧
      (w2.drv.cmd_response = PROCESSING ∨ w2.drv.cmd_response = BUSY) ∧
      Event.abortRequest 500 false ∈ w2.trace := by
  have hA : ¬ w.drv.cmd_hnd ≤ 0 := not_le.mpr h0
  have h500 : (500 : Nat) ≠ 0 := by decide
  set wB : World := abortCommandSys w.drv.cmd_hnd (abortReqMark 500 false w) with hwB
  set wC : World := (clockRead wB).2 with hwC
  have hB : ¬((wC.fw.check wC.nCheck).1 = NO_ACTIVE ∨ (wC.fw.check wC.nCheck).1 = COMPLETED) := by
    show ¬((w.fw.check w.nCheck).1 = NO_ACTIVE ∨ (w.fw.check w.nCheck).1 = COMPLETED)
    rcases hchk w.nCheck with h | h <;>
      simp [h, PROCESSING, BUSY, NO_ACTIVE, COMPLETED]
  have htrig : 500 ≤ wC.fw.clock wC.nClock - (clockRead wB).1 := by
    show 500 ≤ w.fw.clock (w.nClock + 1) - w.fw.clock w.nClock
    have := hclk w.nClock
    omega
  have habort : cdrom_abort_cmd 500 false (k + 1) w =
      some (ERR_TIMEOUT, abortClear (gdInit (gdReset (pollIterWorld w.drv.cmd_hnd wC)))) := by
    rw [cdrom_abort_cmd]
    rw [if_neg (show ¬ (abortReqMark 500 false w).drv.cmd_hnd ≤ 0 from hA)]
    rw [if_neg (show ¬ (false && (abortReqMark 500 false w).drv.dma_in_progress) = true by simp)]
    rw [abortFinish]
    rw [if_pos h500]
    rw [show (abortReqMark 500 false w).drv.cmd_hnd = w.drv.cmd_hnd from rfl]
    rw [← hwB, ← hwC]
    rw [abortLoop_timeout_step w.drv.cmd_hnd 500 ((clockRead wB).1) k wC hB h500 htrig]
    rfl
  refine ⟨_, habort, ?_, ?_, ?_⟩
  · exact abortClear_hnd _
  · rw [abortClear_resp]
    exact hchk w.nCheck
  · rw [abortClear_trace]
    show Event.abortRequest 500 false ∈
      (gdInit (gdReset (pollIterWorld w.drv.cmd_hnd wC))).trace
    simp [gdInit, gdReset, pollIterWorld, execServer, checkCommand, clockRead,
      hwC, hwB, abortCommandSys, abortReqMark, List.mem_append]

/-- Claim C4: with a nonzero timeout, a firmware whose status never
leaves PROCESSING/BUSY, and a wall clock that overshoots both the caller
timeout and the abort grace period between reads, `cdrom_exec_cmd_ex`
(and the poller inside it) escalates: an abort request with the fixed
500 ms grace and `abort_dma = false` is issued, the call returns
ERR_TIMEOUT, and the command handle ends cleared. -/
theorem c4_timeout_escalation (cmd timeout k : Nat) (w : World)
    (ht : timeout ≠ 0)
    (hsend : 0 < w.fw.send w.nSend)
    (hchk : ∀ n, (w.fw.check n).1 = PROCESSING ∨ (w.fw.check n).1 = BUSY)
    (hclk : ∀ n, w.fw.clock n + timeout + 500 ≤ w.fw.clock (n + 1)) :
    ∃ w4, cdrom_exec_cmd_ex cmd timeout false (k + 1) w = some (ERR_TIMEOUT, w4) ∧
      w4.drv.cmd_hnd = 0 ∧ Event.abortRequest 500 false ∈ w4.trace := by
  have hz : w.fw.send w.nSend ≠ 0 := hsend.ne'
  have hreq : cdrom_req_cmd cmd w = sendCommand cmd w := by
    simp [cdrom_req_cmd, reqLoop, sendCommand, hz]
  have hn : ¬ (sendCommand cmd w).1 ≤ 0 := not_le.mpr hsend
  set wS : World := setHnd (sendCommand cmd w).1 (sendCommand cmd w).2 with hwS
  set wP : World := (clockRead wS).2 with hwP
  set wX : World := pollIterWorld (sendCommand cmd w).1 wP with hwX
  obtain ⟨w2, habort, hh2, hresp2, hmem2⟩ :=
    abort_times_out k wX
      (show 0 < wX.drv.cmd_hnd from hsend)
      (show ∀ n, (wX.fw.check n).1 = PROCESSING ∨ (wX.fw.check n).1 = BUSY from hchk)
      (fun n =>
        show wX.fw.clock n + 500 ≤ wX.fw.clock (n + 1) from by
          show w.fw.clock n + 500 ≤ w.fw.clock (n + 1)
          have := hclk n
          omega)
  have hpoll : cdrom_poll_cmd ((sendCommand cmd w).1) timeout (k + 1) wS =
      Option.map (fun rw => (ERR_TIMEOUT, rw.2))
        (cdrom_abort_cmd 500 false (k + 1) wX) := by
    rw [cdrom_poll_cmd]
    rw [if_pos ht]
    rw [pollLoop_timeout_step ((sendCommand cmd w).1) timeout (clockRead wS).1
      (k + 1) k wP
      (by
        rcases hchk w.nCheck with h | h <;>
          · show ¬((w.fw.check w.nCheck).1 ≠ PROCESSING ∧ (w.fw.check w.nCheck).1 ≠ BUSY)
            simp [h, PROCESSING, BUSY])
      ht
      (by
        show timeout ≤ w.fw.clock (w.nClock + 1) - w.fw.clock w.nClock
        have := hclk w.nClock
        omega)]
  have hexec : cdrom_exec_cmd_ex cmd timeout false (k + 1) w =
      (cdrom_poll_cmd ((sendCommand cmd w).1) timeout (k + 1) wS).map
        (fun rw => execTail rw.1 rw.2) := by
    simp only [cdrom_exec_cmd_ex, hreq]
    rw [if_neg hn]
    rfl
  have hne3 : w2.drv.cmd_response ≠ STREAMING := by
    rcases hresp2 with h | h <;> simp [h, PROCESSING, BUSY, STREAMING]
  have htfst : (execTail ERR_TIMEOUT w2).1 = ERR_TIMEOUT := by
    rw [execTail_fst]
    simp [specResultMap, ERR_TIMEOUT, ERR_OK]
  refine ⟨(execTail ERR_TIMEOUT w2).2, ?_, ?_, ?_⟩
  · rw [hexec, hpoll, habort]
    simp only [Option.map_some']
    exact congrArg some (Prod.ext htfst rfl)
  · rw [execTail_snd, if_pos hne3]
    rfl
  · rw [execTail_snd, if_pos hne3]
    exact hmem2

/-- Witness for C4 at a concrete always-processing firmware with a fast
clock and a 1000 ms caller timeout. -/
theorem c4_witness :
    (1000 : Nat) ≠ 0 ∧ 0 < wC4.fw.send wC4.nSend ∧
      ∃ w4, cdrom_exec_cmd_ex CMD_INIT 1000 false 1 wC4 = some (ERR_TIMEOUT, w4) ∧
        w4.drv.cmd_hnd = 0 ∧ Event.abortRequest 500 false ∈ w4.trace :=
  ⟨by decide, by decide,
    c4_timeout_escalation CMD_INIT 1000 0 wC4 (by decide) (by decide)
      (fun n => Or.inl rfl)
      (fun n => by
        show 2000 * n + 1000 + 500 ≤ 2000 * (n + 1)
        omega)⟩

/-- Witness for C10 at a concrete three-track TOC whose second track is
the data track. -/
theorem c10_witness :
    1 ≤ TOC_TRACK toc10.first ∧ TOC_TRACK toc10.last ≤ 99 ∧
      TOC_TRACK toc10.first ≤ TOC_TRACK toc10.last ∧
      cdrom_locate_data_track toc10 = 500 ∧
      ((∃ i, TOC_TRACK toc10.first ≤ i ∧ i ≤ TOC_TRACK toc10.last ∧
          TOC_CTRL (toc10.entry (i - 1)) = 4 ∧
          (∀ j, i < j → j ≤ TOC_TRACK toc10.last →
            TOC_CTRL (toc10.entry (j - 1)) ≠ 4) ∧
          cdrom_locate_data_track toc10 = TOC_LBA (toc10.entry (i - 1)))
        ∨ ((∀ i, TOC_TRACK toc10.first ≤ i → i ≤ TOC_TRACK toc10.last →
            TOC_CTRL (toc10.entry (i - 1)) ≠ 4) ∧
          cdrom_locate_data_track toc10 = 0)) :=
  ⟨by decide, by decide, by decide, by decide,
    (c10_locate_data_track_char toc10).2 (by decide) (by decide) (by decide)⟩

end Cdrom
